import Mathlib

/-!
Shallow embedding of the CEIL Discord bot (`src/main.py`): the
moderation-and-engagement state engine (banned-term filter, link filter,
slowmode, spam sliding window with auto-mute, deferred unmute reversal,
XP/level ledger, daily counters, per-channel AI mode router), together
with theorems settling the frozen specification claims.

Python strings are modelled as `List Char`; Python `dict`s as functions
into `Option`; timestamps (`datetime.utcnow().timestamp()`, a float) as
`ℚ`; calendar dates as `ℕ` day codes; snowflake ids as `ℕ`.
-/

namespace CeilBot

/-! ### Python string primitives -/

/-- Python `str.lower()` (ASCII view). -/
def pyLower (s : List Char) : List Char := s.map Char.toLower

/-- Python `str.strip()`: drop leading and trailing whitespace. -/
def pyStrip (s : List Char) : List Char :=
  ((s.dropWhile Char.isWhitespace).reverse.dropWhile Char.isWhitespace).reverse

/-- Python substring containment `needle in hay` (contiguous substring). -/
def isSubstr (needle hay : List Char) : Bool :=
  hay.tails.any (fun t => needle.isPrefixOf t)

/-- Python `s.split(" ", 1)`: the part before the first space, and
(if a space occurs) the part after it. -/
def split1 : List Char → List Char × Option (List Char)
  | [] => ([], none)
  | c :: cs =>
      if c = ' ' then ([], some cs)
      else
        let p := split1 cs
        (c :: p.1, p.2)

/-- Point update of an `Option`-valued map, i.e. `d[k] = v` on a Python dict. -/
def upd {α β : Type} [DecidableEq α] (f : α → Option β) (k : α) (v : β) :
    α → Option β :=
  fun x => if x = k then some v else f x

/-- Point update of a total map (used for the spam tracker, whose absent
entries behave as the empty list). -/
def updT {α β : Type} [DecidableEq α] (f : α → β) (k : α) (v : β) : α → β :=
  fun x => if x = k then v else f x

/-! ### XP / level system (`add_xp`, `src/main.py` lines 174-189) -/

/-- One entry of `xp_data`: `{"xp": int, "level": int}`. -/
structure XpRec where
  xp : ℕ
  level : ℕ
  deriving DecidableEq, Repr

/-- The record created for a new user: `{"xp": 0, "level": 1}`. -/
def xpInit : XpRec := ⟨0, 1⟩

/-- The `while xp >= needed` loop of `add_xp` (`needed = level * 100`),
incrementing `level` until `xp < level * 100`. -/
def levelLoop (xp level : ℕ) : ℕ :=
  if level * 100 ≤ xp then levelLoop xp (level + 1) else level
  termination_by xp + 100 - level * 100
  decreasing_by omega

/-- The body of `add_xp` acting on a single user's record: add `amount`,
rerun the level loop; the boolean is Python's `leveled_up` flag (the loop
ran at least once, i.e. the level strictly increased). -/
def add_xp_rec (s : XpRec) (amount : ℕ) : Bool × XpRec :=
  let xp := s.xp + amount
  let level := levelLoop xp s.level
  (decide (s.level < level), ⟨xp, level⟩)

/-- `add_xp(user_id, amount)` on the `xp_data` dict: the
`if uid not in xp_data` initialisation is folded into `getD xpInit`.
Returns `(leveled_up, new level)` and the updated dict. -/
def add_xp (led : ℕ → Option XpRec) (uid : ℕ) (amount : ℕ) :
    (Bool × ℕ) × (ℕ → Option XpRec) :=
  let r0 := (led uid).getD xpInit
  let res := add_xp_rec r0 amount
  ((res.1, res.2.level), upd led uid res.2)

/-- Replay a list of `(user, amount)` operations against an initially
empty `xp_data` dict. -/
def runLedger (ops : List (ℕ × ℕ)) : ℕ → Option XpRec :=
  ops.foldl (fun led op => (add_xp led op.1 op.2).2) (fun _ => none)

/-- The invariant maintained for every stored XP record: the level is
exactly `xp / 100 + 1`, equivalently `(level-1)*100 ≤ xp < level*100`. -/
def XpInv (s : XpRec) : Prop := s.level = s.xp / 100 + 1

/-! ### Daily counters (`track_daily_message` / `track_new_member`,
`src/main.py` lines 222-243) -/

/-- The three per-guild daily stats dicts: `messages_today`,
`new_members_today` and `last_stats_reset_date` (dates as `ℕ` day codes). -/
structure Stats where
  messages_today : ℕ → Option ℕ
  new_members_today : ℕ → Option ℕ
  last_stats_reset_date : ℕ → Option ℕ

/-- The empty stats dicts at process start. -/
def statsInit : Stats := ⟨fun _ => none, fun _ => none, fun _ => none⟩

/-- `track_daily_message(guild)`: on a date change, set the reset date,
zero `messages_today`, and rewrite `new_members_today` with its current
value (`new_members_today.get(gid, 0)` — note: not zero); then increment
`messages_today`. -/
def track_daily_message (gid today : ℕ) (s : Stats) : Stats :=
  let s1 :=
    if s.last_stats_reset_date gid ≠ some today then
      { last_stats_reset_date := upd s.last_stats_reset_date gid today
        messages_today := upd s.messages_today gid 0
        new_members_today :=
          upd s.new_members_today gid ((s.new_members_today gid).getD 0) }
    else s
  { s1 with
    messages_today :=
      upd s1.messages_today gid ((s1.messages_today gid).getD 0 + 1) }

/-- `track_new_member(guild)`: symmetric — on a date change, zero
`new_members_today` but rewrite `messages_today` with its current value;
then increment `new_members_today`. -/
def track_new_member (gid today : ℕ) (s : Stats) : Stats :=
  let s1 :=
    if s.last_stats_reset_date gid ≠ some today then
      { last_stats_reset_date := upd s.last_stats_reset_date gid today
        messages_today := upd s.messages_today gid ((s.messages_today gid).getD 0)
        new_members_today := upd s.new_members_today gid 0 }
    else s
  { s1 with
    new_members_today :=
      upd s1.new_members_today gid ((s1.new_members_today gid).getD 0 + 1) }

/-! ### Spam sliding window (`src/main.py` lines 88-90, 354-393) -/

def SPAM_WINDOW_SECONDS : ℚ := 8

def SPAM_MAX_MESSAGES : ℕ := 7

def AUTO_MUTE_MINUTES : ℕ := 15

/-- One spam-tracker step for one incoming message at time `now`: append
the timestamp, then keep only entries with `now - t ≤ SPAM_WINDOW_SECONDS`
(the `spam_tracker[gid][uid]` append + list-comprehension prune). -/
def spamStep (w : List ℚ) (now : ℚ) : List ℚ :=
  (w ++ [now]).filter (fun t => decide (now - t ≤ SPAM_WINDOW_SECONDS))

/-- Whether the `k`-th message of timestamp sequence `ts` (messages
`1..k` processed, starting from an empty tracker) triggers the auto-mute:
the pruned window has reached `SPAM_MAX_MESSAGES` and the author is not
staff (`len(...) >= SPAM_MAX_MESSAGES and not is_staff(author)`). -/
def spamMuteAt (staff : Bool) (ts : List ℚ) (k : ℕ) : Bool :=
  decide (SPAM_MAX_MESSAGES ≤ ((ts.take k).foldl spamStep []).length) && !staff

/-! ### Mute marker and deferred reversal (`src/main.py` lines 371-393,
546-584).  The `Muted` role is a single shared marker on the member; the
`ℕ` tag records (as ghost state) which mute request most recently applied
it.  `unmute_later` checks only `muted_role in author.roles`. -/

inductive MuteEvent where
  /-- `add_roles(muted_role)` performed by mute request `req`. -/
  | applyMute (req : ℕ)
  /-- The explicit `!unmute` command: removes the role if present. -/
  | explicitUnmute
  /-- The deferred `unmute_later` task of request `req` fires. -/
  | fireReversal (req : ℕ)
  deriving DecidableEq, Repr

/-- The body of `unmute_later` as implemented: if the member carries the
muted role (whoever applied it), remove it and emit the auto-unmute
notice; otherwise do nothing.  Returns (new marker, notice emitted). -/
def muteFire (marker : Option ℕ) : Option ℕ × Bool :=
  if marker.isSome then (none, true) else (marker, false)

/-- One step of the mute-marker state machine, from the source. -/
def muteStep (marker : Option ℕ) : MuteEvent → Option ℕ × Bool
  | .applyMute r => (some r, false)
  | .explicitUnmute => (none, false)
  | .fireReversal _ => muteFire marker

/-- Replay a list of mute events over the marker state. -/
def muteRun (marker : Option ℕ) (evs : List MuteEvent) : Option ℕ :=
  evs.foldl (fun s e => (muteStep s e).1) marker

/-- The reversal condition as the claim words it ("still carries the
mute-marker applied by that specific mute request"): remove and notify
only when the marker was applied by this very request `r`. -/
def muteFireClaim (marker : Option ℕ) (r : ℕ) : Option ℕ × Bool :=
  if marker = some r then (none, true) else (marker, false)

/-- The claim-side state machine, identical except at `fireReversal`. -/
def muteStepClaim (marker : Option ℕ) : MuteEvent → Option ℕ × Bool
  | .applyMute r => (some r, false)
  | .explicitUnmute => (none, false)
  | .fireReversal r => muteFireClaim marker r

/-- Replay under the claim-side semantics. -/
def muteRunClaim (marker : Option ℕ) (evs : List MuteEvent) : Option ℕ :=
  evs.foldl (fun s e => (muteStepClaim s e).1) marker

/-! ### Moderation pipeline (`on_message`, `src/main.py` lines 282-431) -/

/-- The feature flags and banned-word list of `config` /
`BANNED_WORDS` used by `on_message`. -/
structure Config where
  ai_enabled : Bool
  moderation_enabled : Bool
  spam_protection : Bool
  link_blocking : Bool
  xp_enabled : Bool
  banned_words : List (List Char)

/-- `DEFAULT_CONFIG`'s banned words. -/
def DEFAULT_BANNED_WORDS : List (List Char) :=
  ["fuck".toList, "shit".toList, "bitch".toList]

/-- `DEFAULT_CONFIG` restricted to the fields `on_message` reads. -/
def defaultConfig : Config :=
  { ai_enabled := true, moderation_enabled := true, spam_protection := true
    link_blocking := true, xp_enabled := true
    banned_words := DEFAULT_BANNED_WORDS }

/-- The fixed `link_triggers` list (`src/main.py` line 318). -/
def LINK_TRIGGERS : List (List Char) :=
  ["http://".toList, "https://".toList, "discord.gg/".toList,
   ".com".toList, ".net".toList, ".org".toList]

/-- `DEFAULT_AI_CHANNEL_NAMES` (`src/main.py` line 83). -/
def DEFAULT_AI_CHANNEL_NAMES : List (List Char) :=
  ["ceil-assistant".toList, "coordination-hub".toList, "academic-assistant".toList]

/-- One inbound chat message as `on_message` sees it.  `isSelf` is
`message.author == bot.user`; `isBot` is `message.author.bot`; `isStaff`
is `is_staff(message.author)`; `inGuild` is `message.guild is not None`;
`mentioned` is `bot.user.mentioned_in(message)`; `now` is
`datetime.utcnow().timestamp()` and `today` the current UTC date. -/
structure Msg where
  isSelf : Bool
  isBot : Bool
  isStaff : Bool
  inGuild : Bool
  mentioned : Bool
  guild : ℕ
  channel : ℕ
  author : ℕ
  channelName : List Char
  content : List Char
  now : ℚ
  today : ℕ

/-- The mutable module-level state `on_message` touches. -/
structure BotState where
  slowmode_settings : ℕ → Option ℕ
  last_message_time : ℕ × ℕ → Option ℚ
  spam_tracker : ℕ × ℕ → List ℚ
  xp_data : ℕ → Option XpRec
  stats : Stats
  channel_modes : ℕ → Option (List Char)

/-- The empty state at process start. -/
def stateInit : BotState :=
  { slowmode_settings := fun _ => none, last_message_time := fun _ => none
    spam_tracker := fun _ => [], xp_data := fun _ => none
    stats := statsInit, channel_modes := fun _ => none }

/-- The observable effects of processing one message: which filter (if
any) deleted it, whether the spam tracker was appended to and an
auto-mute issued, whether XP and the daily counter were accrued, the
level-up notice, and whether the message was handed to the AI. -/
structure Effects where
  deletedBanned : Bool
  deletedLink : Bool
  rejectedSlowmode : Bool
  spamAppended : Bool
  autoMuted : Bool
  xpGained : Bool
  dailyCounted : Bool
  levelUpNotice : Option ℕ
  aiDispatched : Bool
  deriving DecidableEq, Repr

/-- No effect at all (the pure pass-through outcome). -/
def noEffects : Effects :=
  { deletedBanned := false, deletedLink := false, rejectedSlowmode := false
    spamAppended := false, autoMuted := false, xpGained := false
    dailyCounted := false, levelUpNotice := none, aiDispatched := false }

/-- Stage 7, AI dispatch decision (`src/main.py` lines 406-431): reply
when mentioned, or in a default AI channel (by lowered channel name), or
the channel has an explicit mode.  Mutates no ledger. -/
def aiStage (cfg : Config) (st : BotState) (m : Msg) (e : Effects) :
    Effects × BotState :=
  if !cfg.ai_enabled then (e, st)
  else
    let should := m.mentioned
      || DEFAULT_AI_CHANNEL_NAMES.contains (pyLower m.channelName)
      || (st.channel_modes m.channel).isSome
    ({ e with aiDispatched := should }, st)

/-- Stage 6, XP accrual (`src/main.py` lines 396-404): for a non-bot
author with trimmed content longer than 2 characters, bump the daily
message counter and award 10 XP. -/
def xpStage (cfg : Config) (st : BotState) (m : Msg) (e : Effects) :
    Effects × BotState :=
  if cfg.xp_enabled && !m.isBot && decide (2 < (pyStrip m.content).length) then
    let st1 := { st with stats := track_daily_message m.guild m.today st.stats }
    let res := add_xp st1.xp_data m.author 10
    let st2 := { st1 with xp_data := res.2 }
    let e1 := { e with xpGained := true, dailyCounted := true
                       levelUpNotice := if res.1.1 then some res.1.2 else none }
    aiStage cfg st2 m e1
  else aiStage cfg st m e

/-- Stage 5, anti-spam (`src/main.py` lines 354-393): for a non-bot
author with moderation and spam protection on, append + prune the
tracker; if the window holds `SPAM_MAX_MESSAGES` and the author is not
staff, auto-mute. -/
def spamStage (cfg : Config) (st : BotState) (m : Msg) :
    Effects × BotState :=
  if cfg.moderation_enabled && cfg.spam_protection && !m.isBot then
    let w := spamStep (st.spam_tracker (m.guild, m.author)) m.now
    let st1 := { st with spam_tracker := updT st.spam_tracker (m.guild, m.author) w }
    let muted := decide (SPAM_MAX_MESSAGES ≤ w.length) && !m.isStaff
    xpStage cfg st1 m
      { noEffects with spamAppended := true, autoMuted := muted }
  else xpStage cfg st m noEffects

/-- Stage 4, slowmode (`src/main.py` lines 330-350): for a non-bot
author in a channel with a configured delay, reject (delete silently,
with an attempted DM) when `now - last < delay` and the author is not
staff; otherwise record `now` as the new last-message time.  The absent
entry defaults to `0` (`last_message_time.get(key, 0)`). -/
def slowmodeStage (cfg : Config) (st : BotState) (m : Msg) :
    Effects × BotState :=
  if m.isBot then spamStage cfg st m
  else
    match st.slowmode_settings m.channel with
    | none => spamStage cfg st m
    | some delay =>
        let last := (st.last_message_time (m.channel, m.author)).getD 0
        if m.now - last < (delay : ℚ) ∧ m.isStaff = false then
          ({ noEffects with rejectedSlowmode := true }, st)
        else
          let lmt := upd st.last_message_time (m.channel, m.author) m.now
          spamStage cfg { st with last_message_time := lmt } m

/-- The full `on_message` pipeline: skip self, skip DMs, banned-word
filter, link filter, then slowmode → spam → XP → AI. -/
def on_message (cfg : Config) (st : BotState) (m : Msg) :
    Effects × BotState :=
  if m.isSelf then (noEffects, st)
  else if !m.inGuild then (noEffects, st)
  else
    let msgLower := pyLower m.content
    if cfg.moderation_enabled && cfg.banned_words.any (fun b => isSubstr b msgLower) then
      ({ noEffects with deletedBanned := true }, st)
    else if cfg.moderation_enabled && cfg.link_blocking && !m.isBot && !m.isStaff
            && LINK_TRIGGERS.any (fun t => isSubstr t msgLower) then
      ({ noEffects with deletedLink := true }, st)
    else slowmodeStage cfg st m

/-! ### AI mode command (`!mode`, `src/main.py` lines 649-669) -/

/-- The keys of the fixed `AI_MODES` dict. -/
def AI_MODE_KEYS : List (List Char) :=
  ["ceil".toList, "education".toList, "admin".toList, "general".toList, "fun".toList]

/-- The `!mode` command body: strip + lower the input; `topic <text>`
stores `topic:<text>` unless the stripped text is empty; otherwise the
input must be a fixed `AI_MODES` key.  Returns the updated
`channel_modes` dict and the stored key (`none` = user-facing error,
dict untouched). -/
def mode_cmd (channel_modes : ℕ → Option (List Char)) (ch : ℕ)
    (raw : List Char) : (ℕ → Option (List Char)) × Option (List Char) :=
  let m := pyLower (pyStrip raw)
  if ("topic ".toList).isPrefixOf m then
    let topic := pyStrip ((split1 m).2.getD [])
    if topic = [] then (channel_modes, none)
    else
      let key := "topic:".toList ++ topic
      (upd channel_modes ch key, some key)
  else if m ∈ AI_MODE_KEYS then (upd channel_modes ch m, some m)
  else (channel_modes, none)

/-! ### Concrete fixtures used by witnesses and counterexamples -/

/-- A message authored by a *different* bot account (`author.bot` set,
but not the bot itself) whose text contains the banned word `shit`. -/
def mOtherBot : Msg :=
  { isSelf := false, isBot := true, isStaff := false, inGuild := true
    mentioned := false, guild := 0, channel := 0, author := 2
    channelName := "general".toList, content := "shit".toList, now := 0, today := 0 }

/-- A message authored by a different bot account with harmless text
that mentions this bot. -/
def mBotMention : Msg :=
  { isSelf := false, isBot := true, isStaff := false, inGuild := true
    mentioned := true, guild := 0, channel := 0, author := 2
    channelName := "general".toList, content := "hello there".toList
    now := 0, today := 0 }

/-- A human message with text `no shirt no shoes`. -/
def mShirt : Msg :=
  { isSelf := false, isBot := false, isStaff := false, inGuild := true
    mentioned := false, guild := 0, channel := 0, author := 3
    channelName := "general".toList, content := "no shirt no shoes".toList
    now := 0, today := 0 }

/-- A harmless human message in a slowmode channel, sent at time 102. -/
def mSlow : Msg :=
  { isSelf := false, isBot := false, isStaff := false, inGuild := true
    mentioned := false, guild := 0, channel := 0, author := 1
    channelName := "general".toList, content := "hello there".toList
    now := 102, today := 0 }

/-- A state where channel 0 has a 5-second slowmode and actor 1 last
spoke in it at time 100. -/
def stSlow : BotState :=
  { stateInit with
    slowmode_settings := upd (fun _ => none) 0 5
    last_message_time := upd (fun _ => none) (0, 1) 100 }

/-! ## Helper lemmas -/

/-! ### XP level arithmetic -/

/-- Closed form of the level loop: the final level is the old level or
`xp / 100 + 1`, whichever is larger. -/
theorem levelLoop_eq (xp level : ℕ) : levelLoop xp level = max level (xp / 100 + 1) := by
  rw [levelLoop]
  split
  · rw [levelLoop_eq xp (level + 1)]
    have h1 : level ≤ xp / 100 := Nat.le_div_iff_mul_le (by norm_num) |>.2 (by omega)
    omega
  · have h2 : xp / 100 < level := (Nat.div_lt_iff_lt_mul (by norm_num)).2 (by omega)
    omega
  termination_by xp + 100 - level * 100
  decreasing_by omega

theorem levelLoop_ge (xp level : ℕ) : level ≤ levelLoop xp level := by
  rw [levelLoop_eq]; omega

theorem levelLoop_bound (xp level : ℕ) : xp < levelLoop xp level * 100 := by
  rw [levelLoop_eq]
  have h := Nat.div_add_mod xp 100
  have h2 : xp % 100 < 100 := Nat.mod_lt _ (by norm_num)
  have h3 : xp / 100 + 1 ≤ max level (xp / 100 + 1) := le_max_right _ _
  nlinarith [Nat.mul_le_mul_right 100 h3]

theorem xpInv_init : XpInv xpInit := by simp [XpInv, xpInit]

theorem xpInv_add (s : XpRec) (a : ℕ) (h : XpInv s) : XpInv (add_xp_rec s a).2 := by
  simp only [XpInv, add_xp_rec, levelLoop_eq] at h ⊢
  have hdiv : s.xp / 100 ≤ (s.xp + a) / 100 := Nat.div_le_div_right (by omega)
  omega

theorem xpInv_bounds (s : XpRec) (h : XpInv s) :
    (s.level - 1) * 100 ≤ s.xp ∧ s.xp < s.level * 100 := by
  have hd := Nat.div_add_mod s.xp 100
  have hm : s.xp % 100 < 100 := Nat.mod_lt _ (by norm_num)
  simp only [XpInv] at h
  constructor
  · have he : (s.level - 1) = s.xp / 100 := by omega
    rw [he]; omega
  · have he : s.level * 100 = s.xp / 100 * 100 + 100 := by
      rw [h]; ring
    omega

/-- Every record ever stored in the `xp_data` dict satisfies `XpInv`. -/
theorem foldl_ledger_inv (ops : List (ℕ × ℕ)) :
    ∀ led : ℕ → Option XpRec, (∀ uid r, led uid = some r → XpInv r) →
      ∀ uid r,
        (ops.foldl (fun led op => (add_xp led op.1 op.2).2) led) uid = some r →
        XpInv r := by
  induction ops with
  | nil => intro led h uid r hr; exact h uid r hr
  | cons op rest ih =>
      intro led h uid r hr
      rw [List.foldl_cons] at hr
      refine ih _ ?_ uid r hr
      intro uid2 r2 hr2
      simp only [add_xp, upd] at hr2
      by_cases huid : uid2 = op.1
      · subst huid
        rw [if_pos rfl] at hr2
        injection hr2 with hr2
        subst hr2
        apply xpInv_add
        cases hu : led op.1 with
        | none => simpa [hu] using xpInv_init
        | some r0 => simpa [hu] using h op.1 r0 hu
      · rw [if_neg huid] at hr2
        exact h uid2 r2 hr2

theorem runLedger_inv (ops : List (ℕ × ℕ)) (uid : ℕ) (r : XpRec)
    (h : runLedger ops uid = some r) : XpInv r :=
  foldl_ledger_inv ops _ (by intro uid2 r2 hr2; cases hr2) uid r h

/-! ### Spam window lemmas -/

theorem foldl_spamStep_length (ts : List ℚ) :
    ∀ w : List ℚ, ((ts.foldl spamStep w).length ≤ w.length + ts.length) := by
  induction ts with
  | nil => intro w; simp
  | cons t rest ih =>
      intro w
      have h1 : (spamStep w t).length ≤ w.length + 1 := by
        calc (spamStep w t).length ≤ (w ++ [t]).length := List.length_filter_le _ _
          _ = w.length + 1 := by simp
      calc ((t :: rest).foldl spamStep w).length
          = (rest.foldl spamStep (spamStep w t)).length := by rw [List.foldl_cons]
        _ ≤ (spamStep w t).length + rest.length := ih _
        _ ≤ w.length + (t :: rest).length := by simp; omega

/-- For a time-ordered event sequence, iterated append-and-prune leaves
exactly the entries within `SPAM_WINDOW_SECONDS` of the final timestamp. -/
theorem foldl_spamStep_sorted :
    ∀ (ts w : List ℚ) (L : ℚ), (w ++ ts).Pairwise (· ≤ ·) → ts.getLast? = some L →
      ts.foldl spamStep w
        = (w ++ ts).filter (fun t => decide (L - t ≤ SPAM_WINDOW_SECONDS)) := by
  intro ts
  induction ts with
  | nil => intro w L _ hL; simp at hL
  | cons now rest ih =>
      intro w L hp hL
      cases rest with
      | nil =>
          simp only [List.getLast?_singleton, Option.some.injEq] at hL
          subst hL
          rw [List.foldl_cons, List.foldl_nil]
          rfl
      | cons r rs =>
          have hL' : (r :: rs).getLast? = some L := by
            rw [List.getLast?_cons_cons] at hL; exact hL
          have hmemL : L ∈ r :: rs := List.mem_of_getLast?_eq_some hL'
          have hpc : (now :: r :: rs).Pairwise (· ≤ ·) :=
            (List.pairwise_append.1 hp).2.1
          have hnowle : now ≤ L := (List.pairwise_cons.1 hpc).1 L hmemL
          have hsub : List.Sublist (spamStep w now ++ (r :: rs)) ((w ++ [now]) ++ (r :: rs)) :=
            (List.filter_sublist _).append_right _
          have hp1 : ((w ++ [now]) ++ (r :: rs)).Pairwise (· ≤ ·) := by
            rw [List.append_assoc]
            simpa using hp
          have hp' : (spamStep w now ++ (r :: rs)).Pairwise (· ≤ ·) :=
            hp1.sublist hsub
          have ihres := ih (spamStep w now) L hp' hL'
          rw [List.foldl_cons, ihres]
          have hcollapse :
              (spamStep w now).filter (fun t => decide (L - t ≤ SPAM_WINDOW_SECONDS))
                = (w ++ [now]).filter (fun t => decide (L - t ≤ SPAM_WINDOW_SECONDS)) := by
            simp only [spamStep, List.filter_filter]
            apply List.filter_congr
            intro t _
            by_cases h : L - t ≤ SPAM_WINDOW_SECONDS
            · have h2 : now - t ≤ SPAM_WINDOW_SECONDS := by
                have : now - t ≤ L - t := by linarith
                linarith
              simp [h, h2]
            · simp [h]
          rw [List.filter_append, hcollapse, ← List.filter_append]
          have harr : (w ++ [now]) ++ (r :: rs) = w ++ (now :: r :: rs) := by
            simp
          rw [harr]

/-- Specialisation to an empty initial tracker. -/
theorem window_last {ts : List ℚ} {L : ℚ} (hp : ts.Pairwise (· ≤ ·))
    (hL : ts.getLast? = some L) :
    ts.foldl spamStep []
      = ts.filter (fun t => decide (L - t ≤ SPAM_WINDOW_SECONDS)) := by
  have h := foldl_spamStep_sorted ts [] L (by simpa using hp) hL
  simpa using h

theorem length_filter_lt_of_mem {α : Type} (p : α → Bool) {l : List α} {a : α}
    (ha : a ∈ l) (hpa : p a = false) : (l.filter p).length < l.length := by
  induction l with
  | nil => cases ha
  | cons b bs ih =>
      rcases List.mem_cons.1 ha with rfl | hmem
      · rw [List.filter_cons, if_neg (by simp [hpa])]
        have h1 := List.length_filter_le p bs
        simp only [List.length_cons]
        omega
      · cases hpb : p b
        · rw [List.filter_cons, if_neg (by simp [hpb])]
          have h2 := ih hmem
          simp only [List.length_cons]
          omega
        · rw [List.filter_cons, if_pos (by simp [hpb])]
          have h2 := ih hmem
          simp only [List.length_cons]
          omega

/-! ### Pipeline stage normal forms -/

theorem aiStage_eq (cfg : Config) (st : BotState) (m : Msg) (e : Effects) :
    ∃ b : Bool, aiStage cfg st m e = ({ e with aiDispatched := b }, st) := by
  simp only [aiStage]
  split
  · exact ⟨e.aiDispatched, by simp⟩
  · exact ⟨_, rfl⟩

/-- The spam, XP and AI stages never delete a message nor reject it for
slowmode, and never touch the slowmode, last-message-time or
channel-mode state. -/
theorem spamStage_fields (cfg : Config) (st : BotState) (m : Msg) :
    (spamStage cfg st m).1.deletedBanned = false ∧
    (spamStage cfg st m).1.deletedLink = false ∧
    (spamStage cfg st m).1.rejectedSlowmode = false ∧
    (spamStage cfg st m).2.last_message_time = st.last_message_time ∧
    (spamStage cfg st m).2.slowmode_settings = st.slowmode_settings ∧
    (spamStage cfg st m).2.channel_modes = st.channel_modes := by
  simp only [spamStage, xpStage, aiStage]
  split <;> split <;> split <;> simp [noEffects]

/-- The tail of the pipeline from slowmode on never deletes a message
for banned words or links. -/
theorem slowmodeStage_fields (cfg : Config) (st : BotState) (m : Msg) :
    (slowmodeStage cfg st m).1.deletedBanned = false ∧
    (slowmodeStage cfg st m).1.deletedLink = false := by
  simp only [slowmodeStage]
  split
  · have h := spamStage_fields cfg st m
    exact ⟨h.1, h.2.1⟩
  · split
    · have h := spamStage_fields cfg st m
      exact ⟨h.1, h.2.1⟩
    · split
      · simp [noEffects]
      · have h := spamStage_fields cfg ({ st with last_message_time := upd st.last_message_time (m.channel, m.author) m.now }) m
        exact ⟨h.1, h.2.1⟩

/-- For a bot author, the slowmode, spam and XP stages are all skipped
and the state is untouched: the only possible effect is the AI dispatch
flag, which follows the usual dispatch rule (AI enabled, and mentioned
or default AI channel or explicit channel mode). -/
theorem slowmodeStage_bot (cfg : Config) (st : BotState) (m : Msg)
    (hb : m.isBot = true) :
    slowmodeStage cfg st m =
      ({ noEffects with aiDispatched := cfg.ai_enabled
          && (m.mentioned
              || DEFAULT_AI_CHANNEL_NAMES.contains (pyLower m.channelName)
              || (st.channel_modes m.channel).isSome) }, st) := by
  simp only [slowmodeStage, spamStage, xpStage, aiStage, hb, Bool.not_true,
    Bool.and_false, Bool.false_and, if_true, if_false]
  cases hai : cfg.ai_enabled <;> simp [hai, noEffects]

/-- Auxiliary: a message index below the threshold can never trigger the
auto-mute, because the pruned window holds at most one entry per message. -/
theorem spamMuteAt_short (staff : Bool) (ts : List ℚ) (k : ℕ)
    (hk : k < SPAM_MAX_MESSAGES) : spamMuteAt staff ts k = false := by
  have hlenb := foldl_spamStep_length (ts.take k) []
  have hkk : (ts.take k).length ≤ k := by simp
  have hlt : ¬ (SPAM_MAX_MESSAGES ≤ ((ts.take k).foldl spamStep []).length) := by
    simp only [List.length_nil] at hlenb
    omega
  simp [spamMuteAt, hlt]

/-- Auxiliary: firing an explicit unmute last always leaves the marker
absent. -/
theorem muteRun_unmute_last (pre : List MuteEvent) :
    muteRun none (pre ++ [MuteEvent.explicitUnmute]) = none := by
  simp [muteRun, List.foldl_append, muteStep]

/-! ## Claim theorems -/

/-- C1 counterexample: the claim that every message with the
bot-authored flag set passes through with no moderation and no AI
dispatch is false on the code, which skips only `message.author ==
bot.user`: a message from a *different* bot account containing a banned
word is deleted by the banned-term filter (which has no `author.bot`
check), and a harmless message from a different bot account that
mentions this bot is dispatched to the AI (the dispatch decision has no
`author.bot` check either). -/
theorem bot_message_banned_filter_applies :
    mOtherBot.isBot = true ∧
    (on_message defaultConfig stateInit mOtherBot).1.deletedBanned = true ∧
    mBotMention.isBot = true ∧
    (on_message defaultConfig stateInit mBotMention).1.aiDispatched = true := by
  exact ⟨rfl, by decide, rfl, by decide⟩

/-- C1 (amended): a message authored by the bot itself is passed through
with no moderation, XP, or AI effects and no state change; a message
authored by any other bot account skips the link filter, slowmode, spam
tracking, XP accrual and daily counting (and mutates no state), but
remains subject to the banned-term filter and, when the banned-term
filter does not delete it, to the ordinary AI dispatch rule (mentioned,
or default AI channel, or explicit channel mode). -/
theorem self_and_bot_message_exemptions (cfg : Config) (st : BotState) (m : Msg) :
    (m.isSelf = true → on_message cfg st m = (noEffects, st)) ∧
    (m.isBot = true →
      (on_message cfg st m).1.deletedLink = false ∧
      (on_message cfg st m).1.rejectedSlowmode = false ∧
      (on_message cfg st m).1.spamAppended = false ∧
      (on_message cfg st m).1.autoMuted = false ∧
      (on_message cfg st m).1.xpGained = false ∧
      (on_message cfg st m).1.dailyCounted = false ∧
      (on_message cfg st m).1.levelUpNotice = none ∧
      (on_message cfg st m).2 = st) ∧
    (m.isBot = true → m.isSelf = false → m.inGuild = true →
      (cfg.moderation_enabled
          && cfg.banned_words.any (fun b => isSubstr b (pyLower m.content))) = false →
      (on_message cfg st m).1.aiDispatched
        = (cfg.ai_enabled
            && (m.mentioned
                || DEFAULT_AI_CHANNEL_NAMES.contains (pyLower m.channelName)
                || (st.channel_modes m.channel).isSome))) := by
  refine ⟨?_, ?_, ?_⟩
  · intro hs
    simp [on_message, hs]
  · intro hb
    simp only [on_message]
    split
    · simp [noEffects]
    · split
      · simp [noEffects]
      · split
        · simp [noEffects]
        · split
          · rename_i hguard
            rw [hb] at hguard
            simp at hguard
          · rw [slowmodeStage_bot cfg st m hb]
            simp [noEffects]
  · intro hb hself hguild hband
    have hred : on_message cfg st m = slowmodeStage cfg st m := by
      simp [on_message, hself, hguild, hband, hb]
    rw [hred, slowmodeStage_bot cfg st m hb]

/-- C1 witness: the concrete other-bot message is exempt from spam
tracking and XP and leaves the state untouched, while the concrete
other-bot message that mentions the bot follows the AI dispatch rule
and is dispatched. -/
theorem self_and_bot_message_exemptions_witness :
    (on_message defaultConfig stateInit mOtherBot).1.spamAppended = false ∧
    (on_message defaultConfig stateInit mOtherBot).1.xpGained = false ∧
    (on_message defaultConfig stateInit mOtherBot).2 = stateInit ∧
    (on_message defaultConfig stateInit mBotMention).1.aiDispatched = true := by
  have h := (self_and_bot_message_exemptions defaultConfig stateInit mOtherBot).2.1 rfl
  have h2 := (self_and_bot_message_exemptions defaultConfig stateInit
    mBotMention).2.2 rfl rfl rfl (by decide)
  refine ⟨h.2.2.1, h.2.2.2.2.1, h.2.2.2.2.2.2.2, ?_⟩
  rw [h2]
  decide

/-- C2: with spam protection on, the auto-mute fires exactly when the
pruned 8-second window first holds 7 entries and never for staff.  For a
time-ordered message sequence: staff actors are never muted; the pruned
window equals the set of timestamps within 8 seconds of the newest; 7
messages within 5 seconds mute on the 7th and never earlier; 7 messages
spread over 10 seconds never mute; the mute duration constant is 15
minutes. -/
theorem spam_automute_threshold (ts : List ℚ) (hsorted : ts.Pairwise (· ≤ ·)) :
    (∀ k, spamMuteAt true ts k = false) ∧
    (∀ L, ts.getLast? = some L →
      ts.foldl spamStep []
        = ts.filter (fun t => decide (L - t ≤ SPAM_WINDOW_SECONDS))) ∧
    (ts.length = 7 → (∀ u ∈ ts, ∀ v ∈ ts, u - v ≤ 5) →
      spamMuteAt false ts 7 = true ∧ ∀ k, k < 7 → spamMuteAt false ts k = false) ∧
    (ts.length = 7 → ∀ a L, ts.head? = some a → ts.getLast? = some L → L - a = 10 →
      ∀ k, spamMuteAt false ts k = false) ∧
    AUTO_MUTE_MINUTES = 15 := by
  refine ⟨?_, ?_, ?_, ?_, rfl⟩
  · intro k; simp [spamMuteAt]
  · intro L hL; exact window_last hsorted hL
  · intro h7 hclose
    have hne : ts ≠ [] := by intro h; rw [h] at h7; simp at h7
    obtain ⟨L, hL⟩ := Option.isSome_iff_exists.1 (List.getLast?_isSome.2 hne)
    have htake : ts.take 7 = ts := List.take_of_length_le (by omega)
    have hw := window_last hsorted hL
    have hfill : ts.filter (fun t => decide (L - t ≤ SPAM_WINDOW_SECONDS)) = ts := by
      rw [List.filter_eq_self]
      intro t ht
      have hLt : L - t ≤ 5 := hclose L (List.mem_of_getLast?_eq_some hL) t ht
      simp only [decide_eq_true_eq, SPAM_WINDOW_SECONDS]
      linarith
    refine ⟨?_, fun k hk => spamMuteAt_short false ts k (by simpa [SPAM_MAX_MESSAGES] using hk)⟩
    simp only [spamMuteAt, htake, hw, hfill, h7, SPAM_MAX_MESSAGES]
    simp
  · intro h7 a L ha hL hspan k
    by_cases hk : k < 7
    · exact spamMuteAt_short false ts k (by simpa [SPAM_MAX_MESSAGES] using hk)
    · push_neg at hk
      have htake : ts.take k = ts := List.take_of_length_le (by omega)
      have hw := window_last hsorted hL
      have hmem : a ∈ ts := by
        cases ts with
        | nil => simp at ha
        | cons t0 rest =>
            simp only [List.head?_cons, Option.some.injEq] at ha
            subst ha
            exact List.mem_cons_self _ _
      have hpa : (fun t => decide (L - t ≤ SPAM_WINDOW_SECONDS)) a = false := by
        simp only [SPAM_WINDOW_SECONDS, hspan, decide_eq_false_iff_not]
        norm_num
      have hflt := length_filter_lt_of_mem
        (fun t => decide (L - t ≤ SPAM_WINDOW_SECONDS)) hmem hpa
      have hlt : ¬ (SPAM_MAX_MESSAGES ≤ ((ts.take k).foldl spamStep []).length) := by
        rw [htake, hw]
        simp only [SPAM_MAX_MESSAGES]
        omega
      simp [spamMuteAt, hlt]

/-- C2 witness: seven messages at times 0,1,1,2,3,4,5 (span 5 seconds)
mute a non-staff actor on the 7th message, and never mute a staff
actor. -/
theorem spam_automute_threshold_witness :
    spamMuteAt false [0, 1, 1, 2, 3, 4, 5] 7 = true ∧
    spamMuteAt true [0, 1, 1, 2, 3, 4, 5] 7 = false := by
  have h := spam_automute_threshold [0, 1, 1, 2, 3, 4, 5] (by decide)
  refine ⟨(h.2.2.1 (by norm_num) ?_).1, h.1 7⟩
  intro u hu v hv
  fin_cases hu <;> fin_cases hv <;> norm_num

/-- C3 counterexample: the deferred reversal checks only that the shared
`Muted` role is present, not that it was applied by its own request.
After mute-by-request-0, explicit unmute, then mute-by-request-1, the
marker was applied by request 1; yet request 0's reversal removes it and
emits a notice, while the claim's request-specific check would be a
no-op. -/
theorem deferred_reversal_removes_other_requests_mute :
    muteRun none [MuteEvent.applyMute 0, MuteEvent.explicitUnmute,
      MuteEvent.applyMute 1] = some 1 ∧
    muteStep (some 1) (MuteEvent.fireReversal 0) = (none, true) ∧
    muteFireClaim (some 1) 0 = (some 1, false) := by
  refine ⟨rfl, rfl, by decide⟩

/-- C3 (amended): a deferred reversal, when it fires, removes the mute
and emits a notice if and only if the actor carries the mute-marker at
all at fire time, regardless of which request applied it; in particular,
an explicit unmute issued before the reversal fires, with no intervening
re-mute, makes the later-firing reversal a no-op. -/
theorem deferred_reversal_marker_check (marker : Option ℕ) (r : ℕ) :
    (marker ≠ none → muteStep marker (MuteEvent.fireReversal r) = (none, true)) ∧
    (marker = none → muteStep marker (MuteEvent.fireReversal r) = (marker, false)) ∧
    (∀ pre : List MuteEvent,
      muteStep (muteRun none (pre ++ [MuteEvent.explicitUnmute]))
        (MuteEvent.fireReversal r) = (none, false)) := by
  refine ⟨?_, ?_, ?_⟩
  · intro h
    cases marker with
    | none => exact absurd rfl h
    | some x => rfl
  · intro h; subst h; rfl
  · intro pre; rw [muteRun_unmute_last]; rfl

/-- C3 witness: a present marker is removed with a notice; after an
explicit unmute the reversal is a no-op. -/
theorem deferred_reversal_marker_check_witness :
    muteStep (some 0) (MuteEvent.fireReversal 5) = (none, true) ∧
    muteStep (muteRun none ([MuteEvent.applyMute 0] ++ [MuteEvent.explicitUnmute]))
      (MuteEvent.fireReversal 5) = (none, false) := by
  have h := deferred_reversal_marker_check (some 0) 5
  exact ⟨h.1 (by simp), h.2.2 [MuteEvent.applyMute 0]⟩

/-- C4 (code bug): a member joins on day 1; on day 2 a message is
tracked first, which rolls the shared reset date but rewrites
`new_members_today` with its *old* value instead of zero; a member then
joins on day 2 and the counter reads 2 (day-1 join leaked in), where the
claimed reset-both-counters behaviour would read 1. -/
theorem daily_counters_cross_day_leak :
    ((track_daily_message 0 2 (track_new_member 0 1 statsInit)).new_members_today 0
        = some 1) ∧
    ((track_daily_message 0 2 (track_new_member 0 1 statsInit)).messages_today 0
        = some 1) ∧
    ((track_new_member 0 2 (track_daily_message 0 2 (track_new_member 0 1
        statsInit))).new_members_today 0 = some 2) := by
  refine ⟨?_, ?_, ?_⟩ <;> rfl

/-- C5 counterexample: `shit` is not a contiguous substring of
`no shirt no shoes` (the letters are interrupted by `r`), so that message
is *not* matched by the banned-term filter and is not deleted, contrary
to the claim's scenario. -/
theorem banned_filter_no_shirt_not_matched :
    DEFAULT_BANNED_WORDS.any (fun b => isSubstr b (pyLower mShirt.content)) = false ∧
    (on_message defaultConfig stateInit mShirt).1.deletedBanned = false := by
  exact ⟨by decide, by decide⟩

/-- C5 (amended): with moderation enabled, the banned-term filter deletes
a message if and only if some banned term occurs as a case-insensitive
*contiguous* substring of the text; `no shirt no shoes` is not matched by
the term `shit`, while `this is bullshit` is. -/
theorem banned_filter_substring_policy (cfg : Config) (st : BotState) (m : Msg)
    (h1 : m.isSelf = false) (h2 : m.inGuild = true)
    (h3 : cfg.moderation_enabled = true) :
    ((on_message cfg st m).1.deletedBanned
        = cfg.banned_words.any (fun b => isSubstr b (pyLower m.content))) ∧
    isSubstr ("shit".toList) (pyLower ("no shirt no shoes".toList)) = false ∧
    isSubstr ("shit".toList) (pyLower ("this is bullshit".toList)) = true := by
  refine ⟨?_, by decide, by decide⟩
  cases hany : cfg.banned_words.any (fun b => isSubstr b (pyLower m.content)) with
  | true => simp [on_message, h1, h2, h3, hany, noEffects]
  | false =>
      simp only [on_message, h1, h2, h3, hany, Bool.and_false, Bool.false_eq_true,
        if_false, Bool.not_true, Bool.not_false, if_true]
      split
      · simp [noEffects]
      · exact (slowmodeStage_fields cfg st m).1

/-- C5 witness: the deletion decision coincides with the substring
predicate on the concrete `no shirt no shoes` message. -/
theorem banned_filter_substring_policy_witness :
    (on_message defaultConfig stateInit mShirt).1.deletedBanned
        = defaultConfig.banned_words.any (fun b => isSubstr b (pyLower mShirt.content)) ∧
    isSubstr ("shit".toList) (pyLower ("no shirt no shoes".toList)) = false := by
  have h := banned_filter_substring_policy defaultConfig stateInit mShirt rfl rfl rfl
  exact ⟨h.1, h.2.1⟩

/-- C6: `add_xp` recomputes the level by looping over the growing
thresholds `level * 100` until the points fall below the next one (so
the final level always bounds the points), a single call can cross
several levels and reports the final one: nine 10-point messages leave
an actor at level 1 with 90 points, the tenth reaches level 2, and a
single 250-point award from a fresh record yields level 3 in one call. -/
theorem add_xp_multi_level_scenarios :
    (∀ xp level : ℕ, level ≤ levelLoop xp level ∧ xp < levelLoop xp level * 100) ∧
    runLedger [(1, 10), (1, 10), (1, 10), (1, 10), (1, 10), (1, 10), (1, 10),
      (1, 10), (1, 10)] 1 = some ⟨90, 1⟩ ∧
    (add_xp (runLedger [(1, 10), (1, 10), (1, 10), (1, 10), (1, 10), (1, 10),
      (1, 10), (1, 10), (1, 10)]) 1 10).1 = (true, 2) ∧
    (add_xp (fun _ => none) 1 250).1 = (true, 3) := by
  refine ⟨fun xp level => ⟨levelLoop_ge xp level, levelLoop_bound xp level⟩, ?_, ?_, ?_⟩
  · simp [runLedger, add_xp, add_xp_rec, levelLoop_eq, xpInit, upd]
  · simp [runLedger, add_xp, add_xp_rec, levelLoop_eq, xpInit, upd]
  · simp [add_xp, add_xp_rec, levelLoop_eq, xpInit]

/-- C7: level recomputation is idempotent and monotonic: on any record
reachable from the empty ledger, a zero-amount call reports no level-up
and stores the record unchanged; and no call ever decreases points or
level. -/
theorem add_xp_idempotent_monotone :
    (∀ (s : XpRec) (a : ℕ),
      s.level ≤ (add_xp_rec s a).2.level ∧ s.xp ≤ (add_xp_rec s a).2.xp) ∧
    (∀ (ops : List (ℕ × ℕ)) (uid : ℕ),
      (add_xp (runLedger ops) uid 0).1
          = (false, ((runLedger ops uid).getD xpInit).level) ∧
      (add_xp (runLedger ops) uid 0).2 uid
          = some ((runLedger ops uid).getD xpInit)) := by
  constructor
  · intro s a
    constructor
    · simpa [add_xp_rec] using levelLoop_ge (s.xp + a) s.level
    · simp [add_xp_rec]
  · intro ops uid
    have hinv : XpInv ((runLedger ops uid).getD xpInit) := by
      cases hr : runLedger ops uid with
      | none => simpa [hr] using xpInv_init
      | some r => simpa [hr] using runLedger_inv ops uid r hr
    have hlev : levelLoop ((runLedger ops uid).getD xpInit).xp
        ((runLedger ops uid).getD xpInit).level
        = ((runLedger ops uid).getD xpInit).level := by
      rw [levelLoop_eq]
      simp only [XpInv] at hinv
      omega
    constructor
    · simp [add_xp, add_xp_rec, hlev]
    · simp only [add_xp, add_xp_rec, Nat.add_zero, hlev, upd, if_pos,
        eq_self_iff_true, if_true]

/-- C8: for a non-staff, non-bot author in a channel with a configured
cooldown (and a message not taken by the banned-word or link filters),
the message is rejected if and only if the elapsed time since the
author's last accepted message in that channel is strictly below the
cooldown; otherwise the message's timestamp becomes the author's new
last-spoken time for that channel. -/
theorem slowmode_reject_iff (cfg : Config) (st : BotState) (m : Msg)
    (delay : ℕ) (last : ℚ)
    (hself : m.isSelf = false) (hguild : m.inGuild = true)
    (hbot : m.isBot = false) (hstaff : m.isStaff = false)
    (hnb : cfg.banned_words.any (fun b => isSubstr b (pyLower m.content)) = false)
    (hnl : LINK_TRIGGERS.any (fun t => isSubstr t (pyLower m.content)) = false)
    (hsm : st.slowmode_settings m.channel = some delay)
    (hlast : st.last_message_time (m.channel, m.author) = some last) :
    (m.now - last < (delay : ℚ) →
        on_message cfg st m = ({ noEffects with rejectedSlowmode := true }, st)) ∧
    (¬ m.now - last < (delay : ℚ) →
        (on_message cfg st m).1.rejectedSlowmode = false ∧
        (on_message cfg st m).2.last_message_time (m.channel, m.author)
            = some m.now) := by
  have hred : on_message cfg st m = slowmodeStage cfg st m := by
    simp [on_message, hself, hguild, hnb, hnl]
  constructor
  · intro hlt
    rw [hred]
    simp only [slowmodeStage, hbot, Bool.false_eq_true, if_false, hsm, hlast,
      Option.getD_some]
    rw [if_pos ⟨hlt, hstaff⟩]
  · intro hge
    rw [hred]
    simp only [slowmodeStage, hbot, Bool.false_eq_true, if_false, hsm, hlast,
      Option.getD_some]
    rw [if_neg (fun hc => hge hc.1)]
    have h := spamStage_fields cfg ({ st with last_message_time := upd st.last_message_time (m.channel, m.author) m.now }) m
    refine ⟨h.2.2.1, ?_⟩
    rw [h.2.2.2.1]
    simp [upd]

/-- C8 witness: with a 5-second cooldown on the channel and a last
accepted message at time 100, a message at time 102 is rejected and the
state is unchanged. -/
theorem slowmode_reject_iff_witness :
    on_message defaultConfig stSlow mSlow
      = ({ noEffects with rejectedSlowmode := true }, stSlow) := by
  have h := slowmode_reject_iff defaultConfig stSlow mSlow 5 100 rfl rfl rfl rfl
    (by decide) (by decide) rfl rfl
  exact h.1 (by norm_num [mSlow])

/-- C9: the `!mode` command accepts a fixed persona token or the form
`topic <text>` (storing `topic:<text>`, e.g. `topic football` stores
`topic:football`), and rejects empty topic text and unrecognised tokens
with an error while leaving the channel's mode assignment unchanged. -/
theorem mode_cmd_accept_reject (cm : ℕ → Option (List Char)) (ch : ℕ) :
    (mode_cmd cm ch ("topic football".toList)
        = (upd cm ch ("topic:football".toList), some ("topic:football".toList))) ∧
    (mode_cmd cm ch ("".toList) = (cm, none)) ∧
    (∀ k, k ∈ AI_MODE_KEYS → mode_cmd cm ch k = (upd cm ch k, some k)) ∧
    (∀ raw, (mode_cmd cm ch raw).2 = none → (mode_cmd cm ch raw).1 = cm) := by
  refine ⟨rfl, rfl, ?_, ?_⟩
  · intro k hk
    simp only [AI_MODE_KEYS, List.mem_cons, List.mem_singleton] at hk
    rcases hk with rfl | rfl | rfl | rfl | rfl | h
    · rfl
    · rfl
    · rfl
    · rfl
    · rfl
    · cases h
  · intro raw h
    simp only [mode_cmd] at h ⊢
    split_ifs at h ⊢ <;> simp_all

/-- C9 witness: `topic football` is stored as `topic:football`; an
unknown token leaves the map unchanged. -/
theorem mode_cmd_accept_reject_witness :
    (mode_cmd (fun _ => none) 0 ("topic football".toList)).2
        = some ("topic:football".toList) ∧
    (mode_cmd (fun _ => none) 0 ("xyz".toList)).1 = (fun _ => none) := by
  have h := mode_cmd_accept_reject (fun _ => none) 0
  refine ⟨by rw [h.1], h.2.2.2 ("xyz".toList) (by rfl)⟩

/-- C10: starting from the empty ledger, every stored XP record
satisfies `(level - 1) * 100 ≤ points < level * 100`, i.e. the stored
level equals `points / 100 + 1`. -/
theorem xp_ledger_level_invariant (ops : List (ℕ × ℕ)) (uid : ℕ) (r : XpRec)
    (h : runLedger ops uid = some r) :
    (r.level - 1) * 100 ≤ r.xp ∧ r.xp < r.level * 100 ∧ r.level = r.xp / 100 + 1 := by
  have hinv := runLedger_inv ops uid r h
  obtain ⟨h1, h2⟩ := xpInv_bounds r hinv
  exact ⟨h1, h2, hinv⟩

/-- C10 witness: after a single 250-point award the stored record is
`(250, level 3)` and satisfies the invariant. -/
theorem xp_ledger_level_invariant_witness :
    runLedger [(5, 250)] 5 = some ⟨250, 3⟩ ∧
    ((3 : ℕ) - 1) * 100 ≤ 250 ∧ (250 : ℕ) < 3 * 100 ∧ (3 : ℕ) = 250 / 100 + 1 := by
  have he : runLedger [(5, 250)] 5 = some ⟨250, 3⟩ := by
    simp [runLedger, add_xp, add_xp_rec, levelLoop_eq, xpInit, upd]
  have h := xp_ledger_level_invariant [(5, 250)] 5 ⟨250, 3⟩ he
  exact ⟨he, h.1, h.2.1, h.2.2⟩

end CeilBot
